import Mathlib

/-!
Verification of the facebook-following-scraper repository.

This file shallowly embeds the Python source under `src/` into Lean:

* `src/src/extractors/facebook_parser.py` — the HTML candidate extractor
  (`FacebookFollowingScraper`): URL normalization, candidate filtering,
  deduplication, record construction and the orchestrating `scrape` loop.
* `src/src/extractors/utils_time.py` — `parse_relative_time`.
* `src/src/outputs/exporters.py` — `export_data` and the CSV writer.

Machine-level conventions: Python strings are Lean `String`s processed as
`List Char`; Python `datetime` instants are `Int` microseconds since the Unix
epoch (the datetime module's resolution), always in UTC; fallible Python code
(code that can raise) returns `Except`; filesystem effects are reified as a
list of `FSAction` values describing the I/O the code would perform, in order.
An HTML document is embedded as the list of `<a href=...>` elements that
BeautifulSoup's `find_all("a", href=True)` would return, in document order,
each pre-digested into the attribute values the scraper reads.
-/

/-! ### Python string primitives (modelled on `List Char`) -/

/-- Whitespace as recognized by Python `str.strip()` / regex `\s`,
restricted to the ASCII range. -/
def pyIsSpace (c : Char) : Bool :=
  c == ' ' || c == '\t' || c == '\n' || c == '\x0d' || c == '\x0b' || c == '\x0c'

/-- `startsWithL pre cs` : does `cs` start with `pre`? -/
def startsWithL : List Char → List Char → Bool
  | [], _ => true
  | _ :: _, [] => false
  | p :: ps, c :: cs => p == c && startsWithL ps cs

/-- `hasSubL needle hay` : does `hay` contain `needle` as a contiguous run?
Models the Python `in` operator on strings. -/
def hasSubL (needle : List Char) : List Char → Bool
  | [] => startsWithL needle []
  | c :: cs => startsWithL needle (c :: cs) || hasSubL needle cs

/-- Python `needle in hay` on strings. -/
def strContains (hay needle : String) : Bool := hasSubL needle.data hay.data

/-- Python `pre + rest` string concatenation (transparent model of `+`). -/
def strCat (a b : String) : String := String.mk (a.data ++ b.data)

/-- Python `s.startswith(pre)`. -/
def strStartsWith (s pre : String) : Bool := startsWithL pre.data s.data

/-- Python `s.lower()`, restricted to ASCII case mapping. -/
def pyLower (s : String) : String := String.mk (s.data.map Char.toLower)

/-- Python `s.strip()` (strip whitespace from both ends). -/
def pyStrip (s : String) : String :=
  String.mk (((s.data.dropWhile pyIsSpace).reverse.dropWhile pyIsSpace).reverse)

/-- Python `s.lstrip(c)` for a single strip character. -/
def pyLstripChar (c : Char) (s : String) : String :=
  String.mk (s.data.dropWhile (fun x => x == c))

/-- Python `s.rstrip(c)` for a single strip character. -/
def pyRstripChar (c : Char) (s : String) : String :=
  String.mk ((s.data.reverse.dropWhile (fun x => x == c)).reverse)

/-- Membership of a string in a list of strings (Python `in` on a set whose
elements we carry as a list; only membership is ever observed). -/
def memStr (u : String) : List String → Bool
  | [] => false
  | v :: vs => u == v || memStr u vs

/-- Python `s.split(sep)` for a single-character separator
(`"a//b".split("/") == ["a", "", "b"]`, `"".split("/") == [""]`). -/
def splitCharAux (sep : Char) : List Char → List Char → List (List Char)
  | [], acc => [acc.reverse]
  | x :: xs, acc =>
    if x == sep then acc.reverse :: splitCharAux sep xs []
    else splitCharAux sep xs (x :: acc)

/-- Index of the first occurrence of `c`. -/
def idxOf? (c : Char) : List Char → Option Nat
  | [] => Option.none
  | x :: xs => if x == c then some 0 else (idxOf? c xs).map (· + 1)

/-- Index of the last occurrence of `c` (Python `s.rfind(c)`). -/
def rIdxOf? (c : Char) (cs : List Char) : Option Nat :=
  (idxOf? c cs.reverse).map (fun i => cs.length - 1 - i)

/-- Python `s.find(c, start)`: first occurrence of `c` at index `≥ start`. -/
def idxFrom? (c : Char) (cs : List Char) (start : Nat) : Option Nat :=
  (idxOf? c (cs.drop start)).map (· + start)

/-- Digit run helpers for the regex models. -/
def digitVal (c : Char) : Nat := c.toNat - 48

def natOfDigits (ds : List Char) : Nat :=
  ds.foldl (fun acc c => acc * 10 + digitVal c) 0

/-! ### Model of `urllib.parse` (Python standard library)

`urlparse` is modelled for the general `scheme://netloc/path?query#fragment`
shape following CPython's `urlsplit`/`urlparse`: unsafe bytes (tab, CR, LF)
are removed, then scheme, netloc, fragment, query and the path's trailing
parameters are split off in that order.  The IPv6-bracket validation of
`urlsplit` (which raises `ValueError`) is not modelled; the claims proved
below are about scrapes in which `urlparse` returns normally. -/

def isAsciiAlpha (c : Char) : Bool :=
  ('a' ≤ c && c ≤ 'z') || ('A' ≤ c && c ≤ 'Z')

def isSchemeChar (c : Char) : Bool :=
  isAsciiAlpha c || c.isDigit || c == '+' || c == '-' || c == '.'

/-- CPython scheme detection: the text before the first `:` must be nonempty,
start with an ASCII letter and consist of scheme characters. Returns
`(lowercased scheme, remainder)`. -/
def pySplitScheme (cs : List Char) : Option (List Char × List Char) :=
  match idxOf? ':' cs with
  | Option.none => Option.none
  | some 0 => Option.none
  | some i =>
    let pre := cs.take i
    if (match cs with
        | c0 :: _ => isAsciiAlpha c0
        | [] => false) && pre.all isSchemeChar then
      some (pre.map Char.toLower, cs.drop (i + 1))
    else Option.none

/-- `_splitnetloc`: the netloc runs from index 2 up to the first `/`, `?`
or `#`. Returns `(netloc, rest-with-delimiter)`. -/
def pySplitNetloc (cs : List Char) : List Char × List Char :=
  let body := cs.drop 2
  let netloc := body.takeWhile (fun c => !(c == '/' || c == '?' || c == '#'))
  (netloc, body.dropWhile (fun c => !(c == '/' || c == '?' || c == '#')))

/-- Split `cs` at the first occurrence of `c` (occurrence dropped);
second component is `[]` when `c` is absent.  Mirrors `s.split(c, 1)`
in the shapes `urlsplit` uses it. -/
def splitAtFirst (c : Char) (cs : List Char) : List Char × List Char :=
  match idxOf? c cs with
  | Option.none => (cs, [])
  | some i => (cs.take i, cs.drop (i + 1))

structure UrlParts where
  scheme : String
  netloc : String
  path : String
  params : String
  query : String
  fragment : String
deriving DecidableEq, Repr

/-- Schemes for which `urlparse` splits path parameters (`uses_params`,
less the exotic entries; it contains the empty scheme and https/http). -/
def USES_PARAMS : List String :=
  ["", "ftp", "hdl", "prospero", "http", "imap", "https", "shttp", "rtsp",
   "rtspu", "sip", "sips", "mms", "sftp", "tel"]

/-- CPython `_splitparams`: parameters are split at the first `;` occurring
in the last path segment. -/
def pySplitParams (cs : List Char) : List Char × List Char :=
  if cs.contains ';' then
    if cs.contains '/' then
      match rIdxOf? '/' cs with
      | some j =>
        match idxFrom? ';' cs j with
        | some i => (cs.take i, cs.drop (i + 1))
        | Option.none => (cs, [])
      | Option.none => (cs, [])
    else
      match idxOf? ';' cs with
      | some i => (cs.take i, cs.drop (i + 1))
      | Option.none => (cs, [])
  else (cs, [])

/-- Model of `urllib.parse.urlparse`. -/
def pyUrlparse (url : String) : UrlParts :=
  let cs := url.data.filter (fun c => !(c == '\t' || c == '\x0d' || c == '\n'))
  let (scheme, rest) :=
    match pySplitScheme cs with
    | some (sch, r) => (sch, r)
    | Option.none => (([] : List Char), cs)
  let (netloc, rest) :=
    if startsWithL ['/', '/'] rest then pySplitNetloc rest else ([], rest)
  let (rest, fragment) := splitAtFirst '#' rest
  let (rest, query) := splitAtFirst '?' rest
  let (path, params) :=
    if memStr (String.mk scheme) USES_PARAMS && rest.contains ';' then
      pySplitParams rest
    else (rest, [])
  { scheme := String.mk scheme, netloc := String.mk netloc,
    path := String.mk path, params := String.mk params,
    query := String.mk query, fragment := String.mk fragment }

/-- Model of `urllib.parse.urljoin` restricted to the call shape of
`_normalize_profile_url`: the base is `self.base_url + "/"` (so it always
ends in `"/"` and is nonempty) and the reference has had all leading slashes
stripped.  An empty reference yields the base; a reference carrying an
`https` scheme is resolved against the base with its scheme stripped (as
CPython does for a reference whose scheme equals the base's); a reference
with any other scheme is returned unchanged (schemes that do not match the
base).  The remaining case appends the reference after the base's trailing
slash, exactly CPython's merge for a base whose path is `/` — except that
dot-segment resolution (`.` and `..` path segments) is not modelled; no
claim below depends on dot segments. -/
def urljoinModel (base rel : String) : String :=
  if rel == "" then base
  else
    match pySplitScheme rel.data with
    | some (sch, rest) =>
      if sch == "https".data then strCat base (String.mk rest) else rel
    | Option.none => strCat base rel

/-- Python `[seg for seg in path.split("/") if seg]`. -/
def pathSegments (path : String) : List String :=
  ((splitCharAux '/' path.data []).filter (fun s => !(s == []))).map String.mk

/-- Model of `re.search(r"id=(\d+)", query)` returning the captured digit
run: leftmost occurrence of the literal `id=` that is followed by at least
one digit; the capture is the maximal digit run (greedy `\d+`). -/
def reIdSearchAux : List Char → Option String
  | [] => Option.none
  | c :: rest =>
    if startsWithL ("id=".data) (c :: rest) then
      match (c :: rest).drop 3 with
      | d :: t =>
        if d.isDigit then some (String.mk (d :: t.takeWhile Char.isDigit))
        else reIdSearchAux rest
      | [] => reIdSearchAux rest
    else reIdSearchAux rest

def reIdSearch (query : String) : Option String := reIdSearchAux query.data

/-- Model of `re.fullmatch(r"\d+", s)` (ASCII digits). -/
def pyFullmatchDigits (s : String) : Bool :=
  !(s == "") && s.data.all Char.isDigit

/-! ### Data model of `facebook_parser.py` -/

/-- Line 12: `FOLLOWING_URL_PATTERNS`. -/
def FOLLOWING_URL_PATTERNS : List String :=
  ["/friends", "/friends_mutual", "/following", "/profile.php", "facebook.com"]

/-- The navigation/utility blocklist of `_find_candidate_cards`
(lines 164-179). -/
def NAV_SKIP_TERMS : List String :=
  ["home", "create", "marketplace", "groups", "friends", "watch", "menu",
   "log in", "log out", "privacy", "terms"]

/-- One `<a href=...>` element as returned by
`soup.find_all("a", href=True)`, pre-digested into the attribute values the
scraper reads.  `text` is the result of `a.get_text(strip=True)`;
`Option.none` models an absent attribute (Python `a.get(...) is None`);
`hasImg`/`imgSrc`/`imgDataSrc` describe `a.find("img")` and that element's
`src` / `data-src` attributes. -/
structure Anchor where
  href : String
  text : String
  ariaLabel : Option String
  titleAttr : Option String
  hasImg : Bool
  imgSrc : Option String
  imgDataSrc : Option String
  dataGt : Option String
  dataHovercard : Option String
deriving DecidableEq, Repr

/-- Lines 20-28: the `FollowingProfile` dataclass.  `profile_details` is an
association list in insertion order (the Python dict is built with at most
the keys `data_gt` and `data_hovercard`). -/
structure FollowingProfile where
  id : String
  image : Option String
  title : String
  subtitle_text : Option String
  url : String
  username : Option String
  profile_details : Option (List (String × String))
deriving DecidableEq, Repr

/-- A Python value as it appears in the dicts produced by
`FollowingProfile.to_dict` (`dataclasses.asdict`). -/
inductive PyVal
  | none
  | str (s : String)
  | dict (kvs : List (String × String))
deriving DecidableEq, Repr

def optVal : Option String → PyVal
  | Option.none => PyVal.none
  | some s => PyVal.str s

/-- Lines 30-31: `to_dict` = `dataclasses.asdict`, fields in declaration
order, nested dict serialized recursively, `None` preserved. -/
def FollowingProfile.to_dict (p : FollowingProfile) : List (String × PyVal) :=
  [("id", PyVal.str p.id), ("image", optVal p.image),
   ("title", PyVal.str p.title), ("subtitle_text", optVal p.subtitle_text),
   ("url", PyVal.str p.url), ("username", optVal p.username),
   ("profile_details",
     match p.profile_details with
     | Option.none => PyVal.none
     | some kvs => PyVal.dict kvs)]

/-! ### `_normalize_profile_url`, `_find_candidate_cards`,
`_build_profile_from_anchor` -/

/-- Lines 135-140: `_normalize_profile_url`.  `base_url` is the stored
`self.base_url` (the constructor's `base_url.rstrip("/")`). -/
def normalize_profile_url (base_url url : String) : String :=
  if strStartsWith url "http://" || strStartsWith url "https://" then url
  else if strStartsWith url "//" then strCat "https:" url
  else urljoinModel (strCat base_url "/") (pyLstripChar '/' url)

/-- The candidate test of `_find_candidate_cards` (lines 153-180): href
matches a known pattern, visible text nonempty, lowercased text contains no
blocklisted term. -/
def isCandidate (a : Anchor) : Bool :=
  FOLLOWING_URL_PATTERNS.any (fun p => strContains a.href p) &&
  !(a.text == "") &&
  !(NAV_SKIP_TERMS.any (fun t => strContains (pyLower a.text) t))

/-- Lines 142-184: `_find_candidate_cards` (a filtering loop preserving
document order). -/
def find_candidate_cards (doc : List Anchor) : List Anchor :=
  doc.filter isCandidate

/-- Python truthiness-based `x or y` on optional strings (`None` and `""`
are falsy). -/
def pyOrOpt (x y : Option String) : Option String :=
  match x with
  | some s => if s == "" then y else some s
  | Option.none => y

/-- `x or y or None`: the subtitle computation of line 188. -/
def pyOrOrNone (x y : Option String) : Option String :=
  match pyOrOpt x y with
  | some s => if s == "" then Option.none else some s
  | Option.none => Option.none

/-- Lines 219-228: the auxiliary `profile_details` dict. -/
def detailEntries (a : Anchor) : List (String × String) :=
  (match a.dataGt with
   | some v => if v == "" then [] else [("data_gt", v)]
   | Option.none => []) ++
  (match a.dataHovercard with
   | some v => if v == "" then [] else [("data_hovercard", v)]
   | Option.none => [])

/-- Lines 195-217: the `profile_id` value `_build_profile_from_anchor`
computes before the final empty-string fallback of line 216.  In the
non-`profile.php` branch the source tests `re.fullmatch(r"\d+", username)`
but assigns `profile_id = username` in both branches (lines 210-214). -/
def rawProfileId (parsed : UrlParts) : String :=
  if strContains parsed.path "profile.php" then
    match reIdSearch parsed.query with
    | some ds => ds
    | Option.none => ""
  else
    match (pathSegments parsed.path).getLast? with
    | some seg => if pyFullmatchDigits seg then seg else seg
    | Option.none => ""

/-- Lines 195-214: `username` stays `None` in the `profile.php` branch and
is the last path segment otherwise (numeric or not, since the numeric test
of line 211 changes only `profile_id`). -/
def usernameOf (parsed : UrlParts) : Option String :=
  if strContains parsed.path "profile.php" then Option.none
  else (pathSegments parsed.path).getLast?

/-- Lines 186-238: `_build_profile_from_anchor`. -/
def build_profile_from_anchor (a : Anchor) (full_url : String) : FollowingProfile :=
  { id :=
      let pid := rawProfileId (pyUrlparse full_url)
      if pid == "" then full_url else pid,
    image := if a.hasImg then pyOrOpt a.imgSrc a.imgDataSrc else Option.none,
    title := a.text,
    subtitle_text := pyOrOrNone a.ariaLabel a.titleAttr,
    url := full_url,
    username := usernameOf (pyUrlparse full_url),
    profile_details :=
      let entries := detailEntries a
      if entries == [] then Option.none else some entries }

/-! ### `_scrape_profile` and `scrape` -/

/-- The anchor's deduplication key: its normalized URL (line 122). -/
def anchorKey (base_url : String) (a : Anchor) : String :=
  normalize_profile_url base_url a.href

/-- `limit is not None and len(profiles) >= limit` (line 130). -/
def limitReached : Option Int → Nat → Bool
  | Option.none, _ => false
  | some n, len => decide (n ≤ (len : Int))

/-- The loop of `_scrape_profile` (lines 114-133).  `count` is
`len(profiles)` so far and `seen` carries the membership of `seen_urls`;
the produced profiles are returned in order instead of being accumulated. -/
def scrapeGo (base_url : String) (limit : Option Int) :
    Nat → List String → List Anchor → List FollowingProfile
  | _, _, [] => []
  | count, seen, a :: rest =>
    if a.href == "" then scrapeGo base_url limit count seen rest
    else
      let u := normalize_profile_url base_url a.href
      if memStr u seen then scrapeGo base_url limit count seen rest
      else
        let p := build_profile_from_anchor a u
        if limitReached limit (count + 1) then [p]
        else p :: scrapeGo base_url limit (count + 1) (u :: seen) rest

/-- Lines 92-133: `_scrape_profile` applied to an already-fetched document
(the network fetch and HTML parse are the `fetch` collaborator of
`scrape` below). -/
def scrape_profile_parse (base_url : String) (doc : List Anchor)
    (limit : Option Int) : List FollowingProfile :=
  scrapeGo base_url limit 0 [] (find_candidate_cards doc)

/-- `remaining is not None and remaining <= 0` (line 75). -/
def remainingExhausted : Option Int → Bool
  | Option.none => false
  | some n => decide (n ≤ 0)

/-- `remaining -= len(profiles)` (line 88). -/
def decrRemaining : Option Int → Nat → Option Int
  | Option.none, _ => Option.none
  | some n, k => some (n - (k : Int))

/-- Lines 70-90: `scrape`.  `fetch` abstracts `session.get` +
`raise_for_status` + BeautifulSoup: it yields the document's anchors or the
exception the attempt raised; the `try/except` of lines 79-83 appears as the
`Except.error` branch (log and skip).  `max_items` may be any integer or
`None`, exactly as in Python. -/
def scrape {α ε : Type} (fetch : α → Except ε (List Anchor))
    (base_url : String) : List α → Option Int → List (List (String × PyVal))
  | [], _ => []
  | u :: rest, remaining =>
    if remainingExhausted remaining then []
    else
      match fetch u with
      | Except.error _ => scrape fetch base_url rest remaining
      | Except.ok doc =>
        let profiles := scrape_profile_parse base_url doc remaining
        profiles.map FollowingProfile.to_dict ++
          scrape fetch base_url rest (decrRemaining remaining profiles.length)

/-! ### Model of `utils_time.py`

Instants are `Int` microseconds since the Unix epoch, in UTC (the
resolution of Python `datetime`).  `_ensure_utc` converts an aware datetime
with `astimezone(timezone.utc)` and tags a naive one as UTC — both are the
identity on the underlying instant, so the `now` parameter is modelled as
the instant itself.  `datetime.replace(hour=…, minute=…, second=0,
microsecond=0)` validates its fields and raises `ValueError` when they are
out of range, so the model of the `yesterday` branch is fallible. -/

def MICROS_PER_MIN : Int := 60000000
def MICROS_PER_HOUR : Int := 3600000000
def MICROS_PER_DAY : Int := 86400000000

/-- regex `\w` (ASCII): the word characters a `\b` boundary tests. -/
def isWordChar (c : Char) : Bool :=
  isAsciiAlpha c || c.isDigit || c == '_'

/-- `\b` at the point just after a matched unit word: the next character
must be absent or a non-word character. -/
def boundaryAfter : List Char → Bool
  | [] => true
  | c :: _ => !isWordChar c

/-- Does one of the unit alternatives (`min|mins|minute|minutes` etc.)
match at this point, followed by a word boundary? -/
def unitAltAt (alts : List String) (cs : List Char) : Bool :=
  alts.any (fun alt =>
    startsWithL alt.data cs && boundaryAfter (cs.drop alt.data.length))

/-- Model of `re.search` for the patterns
`(?P<value>\d+)\s*(unit-alternatives)\b`: scan left to right; at a digit,
the greedy `\d+` takes the maximal digit run (a shorter run would leave a
digit where `\s*` and the unit word must match, so backtracking it never
succeeds), `\s*` takes the maximal whitespace run (same argument), then one
of the unit alternatives must follow with a word boundary. -/
def relSearch (alts : List String) : List Char → Option Nat
  | [] => Option.none
  | c :: rest =>
    if c.isDigit then
      let ds := (c :: rest).takeWhile Char.isDigit
      let afterWs := ((c :: rest).dropWhile Char.isDigit).dropWhile pyIsSpace
      if unitAltAt alts afterWs then some (natOfDigits ds)
      else relSearch alts rest
    else relSearch alts rest

/-- Lines 7-10: `_RELATIVE_MINUTES_PATTERN` alternatives. -/
def MIN_ALTS : List String := ["min", "mins", "minute", "minutes"]

/-- Lines 11-14: `_RELATIVE_HOURS_PATTERN` alternatives. -/
def HOUR_ALTS : List String := ["h", "hr", "hrs", "hour", "hours"]

/-- Lines 15-18: `_RELATIVE_DAYS_PATTERN` alternatives. -/
def DAY_ALTS : List String := ["d", "day", "days"]

/-- Model of `re.search(r"(\d{1,2}):(\d{2})", s)`: leftmost match, the
greedy `\d{1,2}` preferring two digits.  Returns `(hour, minute)`. -/
def hhmmSearch : List Char → Option (Nat × Nat)
  | [] => Option.none
  | c :: rest =>
    if c.isDigit then
      match rest with
      | c2 :: r2 =>
        if c2.isDigit then
          match r2 with
          | colon :: m1 :: m2 :: _ =>
            if colon == ':' && m1.isDigit && m2.isDigit then
              some (digitVal c * 10 + digitVal c2, digitVal m1 * 10 + digitVal m2)
            else hhmmSearch rest
          | _ => hhmmSearch rest
        else
          match rest with
          | colon :: m1 :: m2 :: _ =>
            if colon == ':' && m1.isDigit && m2.isDigit then
              some (digitVal c, digitVal m1 * 10 + digitVal m2)
            else hhmmSearch rest
          | _ => hhmmSearch rest
      | [] => Option.none
    else hhmmSearch rest

/-- `dt.replace(hour=h, minute=m, second=0, microsecond=0)` on a UTC
instant: keep the civil day (days since the epoch, floor division) and set
the time of day.  Python `datetime` validates the fields first and raises
`ValueError` (hour checked before minute). -/
def pyDatetimeReplaceHM (dt : Int) (h m : Nat) : Except String Int :=
  if 23 < h then Except.error "hour must be in 0..23"
  else if 59 < m then Except.error "minute must be in 0..59"
  else Except.ok ((Int.ediv dt MICROS_PER_DAY) * MICROS_PER_DAY
    + (h : Int) * MICROS_PER_HOUR + (m : Int) * MICROS_PER_MIN)

/-! `datetime.strptime` for the three formats of line 74, and the civil
calendar arithmetic it needs. -/

def isLeapYear (y : Nat) : Bool :=
  y % 4 == 0 && (y % 100 != 0 || y % 400 == 0)

def daysInMonth (y m : Nat) : Nat :=
  if m == 2 then (if isLeapYear y then 29 else 28)
  else if m == 4 || m == 6 || m == 9 || m == 11 then 30
  else 31

/-- Days from the Unix epoch to civil date `y-m-d` (proleptic Gregorian;
the standard `days_from_civil` algorithm). -/
def daysFromCivil (y m d : Int) : Int :=
  let y' := if m ≤ 2 then y - 1 else y
  let era := Int.ediv y' 400
  let yoe := y' - era * 400
  let mp := Int.emod (m + 9) 12
  let doy := Int.ediv (153 * mp + 2) 5 + d - 1
  let doe := yoe * 365 + Int.ediv yoe 4 - Int.ediv yoe 100 + doy
  era * 146097 + doe - 719468

/-- `datetime(year, month, day, hour, minute, second)` construction:
validates ranges (as the constructor does; the regex fragments of
`_strptime` already bound most fields) and yields the UTC instant. -/
def mkDatetimeUTC (y mo d hh mi ss : Nat) : Option Int :=
  if 1 ≤ y && y ≤ 9999 && 1 ≤ mo && mo ≤ 12 && 1 ≤ d && d ≤ daysInMonth y mo
      && hh ≤ 23 && mi ≤ 59 && ss ≤ 59 then
    some ((daysFromCivil (y : Int) (mo : Int) (d : Int)) * MICROS_PER_DAY
      + (hh : Int) * MICROS_PER_HOUR + (mi : Int) * MICROS_PER_MIN
      + (ss : Int) * 1000000)
  else Option.none

/-- Candidate-list parsing: `_strptime` compiles each directive to a regex
fragment; a fragment is modelled as the ordered list of `(value, rest)`
parses its alternation allows, and sequencing concatenates candidate
lists in priority order (the regex engine's backtracking order). -/
def candBind {α β : Type} : List (α × List Char) →
    (α → List Char → List (β × List Char)) → List (β × List Char)
  | [], _ => []
  | (a, rest) :: more, f => f a rest ++ candBind more f

/-- Exactly `n` digits. -/
def pFixedDigits (n : Nat) (cs : List Char) : List (Nat × List Char) :=
  let ds := cs.take n
  if ds.length == n && ds.all Char.isDigit then [(natOfDigits ds, cs.drop n)]
  else []

/-- A literal character. -/
def pLit (c : Char) (cs : List Char) : List (Unit × List Char) :=
  match cs with
  | x :: xs => if x == c then [((), xs)] else []
  | [] => []

/-- Format whitespace: `_strptime` turns whitespace in the format into
`\s+` (one or more; maximal, since every following directive starts with a
digit). -/
def pWs1 (cs : List Char) : List (Unit × List Char) :=
  let rest := cs.dropWhile pyIsSpace
  if rest.length < cs.length then [((), rest)] else []

/-- `%m`: regex `1[0-2]|0[1-9]|[1-9]`, alternatives in that order. -/
def pMonth (cs : List Char) : List (Nat × List Char) :=
  (match cs with
   | a :: b :: r =>
     (if a == '1' && (b == '0' || b == '1' || b == '2') then
        [(natOfDigits [a, b], r)] else []) ++
     (if a == '0' && b.isDigit && b != '0' then [(digitVal b, r)] else [])
   | _ => []) ++
  (match cs with
   | a :: r => if a.isDigit && a != '0' then [(digitVal a, r)] else []
   | _ => [])

/-- `%d`: regex `3[01]|[12]\d|0[1-9]|[1-9]`. -/
def pDay (cs : List Char) : List (Nat × List Char) :=
  (match cs with
   | a :: b :: r =>
     (if a == '3' && (b == '0' || b == '1') then [(natOfDigits [a, b], r)] else []) ++
     (if (a == '1' || a == '2') && b.isDigit then [(natOfDigits [a, b], r)] else []) ++
     (if a == '0' && b.isDigit && b != '0' then [(digitVal b, r)] else [])
   | _ => []) ++
  (match cs with
   | a :: r => if a.isDigit && a != '0' then [(digitVal a, r)] else []
   | _ => [])

/-- `%H`: regex `2[0-3]|[0-1]\d|\d`. -/
def pHour (cs : List Char) : List (Nat × List Char) :=
  (match cs with
   | a :: b :: r =>
     (if a == '2' && (b == '0' || b == '1' || b == '2' || b == '3') then
        [(natOfDigits [a, b], r)] else []) ++
     (if (a == '0' || a == '1') && b.isDigit then [(natOfDigits [a, b], r)] else [])
   | _ => []) ++
  (match cs with
   | a :: r => if a.isDigit then [(digitVal a, r)] else []
   | _ => [])

/-- `%M` / `%S`: regex `[0-5]\d|\d`. -/
def pMinSec (cs : List Char) : List (Nat × List Char) :=
  (match cs with
   | a :: b :: r =>
     if a.isDigit && digitVal a ≤ 5 && b.isDigit then [(natOfDigits [a, b], r)]
     else []
   | _ => []) ++
  (match cs with
   | a :: r => if a.isDigit then [(digitVal a, r)] else []
   | _ => [])

/-- All parses of `"%Y-%m-%d %H:%M:%S"` as `((y, mo, d, hh, mi, ss), rest)`. -/
def parseFmtYmdHms (cs : List Char) :
    List ((Nat × Nat × Nat × Nat × Nat × Nat) × List Char) :=
  candBind (pFixedDigits 4 cs) fun y r1 =>
  candBind (pLit '-' r1) fun _ r2 =>
  candBind (pMonth r2) fun mo r3 =>
  candBind (pLit '-' r3) fun _ r4 =>
  candBind (pDay r4) fun d r5 =>
  candBind (pWs1 r5) fun _ r6 =>
  candBind (pHour r6) fun hh r7 =>
  candBind (pLit ':' r7) fun _ r8 =>
  candBind (pMinSec r8) fun mi r9 =>
  candBind (pLit ':' r9) fun _ r10 =>
  candBind (pMinSec r10) fun ss r11 =>
  [((y, mo, d, hh, mi, ss), r11)]

/-- All parses of `"%Y-%m-%d"`. -/
def parseFmtYmd (cs : List Char) :
    List ((Nat × Nat × Nat × Nat × Nat × Nat) × List Char) :=
  candBind (pFixedDigits 4 cs) fun y r1 =>
  candBind (pLit '-' r1) fun _ r2 =>
  candBind (pMonth r2) fun mo r3 =>
  candBind (pLit '-' r3) fun _ r4 =>
  candBind (pDay r4) fun d r5 =>
  [((y, mo, d, 0, 0, 0), r5)]

/-- All parses of `"%d.%m.%Y %H:%M"`. -/
def parseFmtDmyHm (cs : List Char) :
    List ((Nat × Nat × Nat × Nat × Nat × Nat) × List Char) :=
  candBind (pDay cs) fun d r1 =>
  candBind (pLit '.' r1) fun _ r2 =>
  candBind (pMonth r2) fun mo r3 =>
  candBind (pLit '.' r3) fun _ r4 =>
  candBind (pFixedDigits 4 r4) fun y r5 =>
  candBind (pWs1 r5) fun _ r6 =>
  candBind (pHour r6) fun hh r7 =>
  candBind (pLit ':' r7) fun _ r8 =>
  candBind (pMinSec r8) fun mi r9 =>
  [((y, mo, d, hh, mi, 0), r9)]

/-- `datetime.strptime(text, fmt)`: the first parse consuming the whole
string (strptime rejects trailing input), validated by the `datetime`
constructor.  A `ValueError` (no match, or an invalid civil date such as
Feb 30) is `Option.none`, which line 78 turns into trying the next
format. -/
def strptimeModel
    (parses : List Char → List ((Nat × Nat × Nat × Nat × Nat × Nat) × List Char))
    (text : String) : Option Int :=
  match (parses text.data).filter (fun pr => pr.2 == []) with
  | ((y, mo, d, hh, mi, ss), _) :: _ => mkDatetimeUTC y mo d hh mi ss
  | [] => Option.none

/-- Lines 73-79: the absolute-format fallback loop, formats tried in
order, applied to the original (unstripped) `text`. -/
def strptimeFallback (text : String) : Option Int :=
  match strptimeModel parseFmtYmdHms text with
  | some t => some t
  | Option.none =>
    match strptimeModel parseFmtYmd text with
    | some t => some t
    | Option.none => strptimeModel parseFmtDmyHm text

/-- Lines 25-82: `parse_relative_time(text, now)`.  `now` is the reference
instant (already UTC — `_ensure_utc` is the identity on instants).  The
result is `Except.error msg` when the Python code raises `ValueError`
(which the `yesterday` branch can, through `datetime.replace`). -/
def parse_relative_time (text : String) (now : Int) : Except String Int :=
  let s := pyLower (pyStrip text)
  if s == "just now" || s == "now" then Except.ok now
  else if strStartsWith s "yesterday" then
    let dt := now - MICROS_PER_DAY
    match hhmmSearch s.data with
    | some (h, m) => pyDatetimeReplaceHM dt h m
    | Option.none => Except.ok dt
  else
    match relSearch MIN_ALTS s.data with
    | some n => Except.ok (now - (n : Int) * MICROS_PER_MIN)
    | Option.none =>
      match relSearch HOUR_ALTS s.data with
      | some n => Except.ok (now - (n : Int) * MICROS_PER_HOUR)
      | Option.none =>
        match relSearch DAY_ALTS s.data with
        | some n => Except.ok (now - (n : Int) * MICROS_PER_DAY)
        | Option.none =>
          match strptimeFallback text with
          | some t => Except.ok t
          | Option.none => Except.ok now

/-! ### Model of `outputs/exporters.py`

A record is an association list from string keys to string values (the CSV
writer stringifies scalar values; the claims checked here exercise string
cells).  Filesystem effects are reified: `export_data` returns the ordered
list of I/O actions it performs together with the `ValueError` it raises,
if any — a raised error ends the run, so an error with an empty action list
is a failure before any file I/O. -/

abbrev RecordDict : Type := List (String × String)

inductive FSAction
  /-- `_ensure_parent_dir(path)`: create the destination's parent
  directories when missing. -/
  | ensureParentDir (path : String)
  /-- `_export_json`: write the records as a pretty-printed JSON array. -/
  | writeJson (path : String) (records : List RecordDict)
  /-- `_export_jsonl`: write one compact JSON object per line. -/
  | writeJsonl (path : String) (records : List RecordDict)
  /-- `_export_csv`, nonempty case: write this exact text. -/
  | writeCsv (path : String) (content : String)
  /-- `path.touch()`: create an empty file. -/
  | touch (path : String)
deriving DecidableEq, Repr

structure ExportOutcome where
  actions : List FSAction
  error : Option String
deriving DecidableEq, Repr

/-- `PurePosixPath(p).name`: the last nonempty, non-`.` component
(trailing slashes and `.` components are dropped by pathlib parsing). -/
def pathName (p : String) : List Char :=
  match ((splitCharAux '/' p.data []).filter
      (fun s => !(s == []) && !(s == ['.']))).getLast? with
  | some n => n
  | Option.none => []

/-- `PurePath.suffix`: `name[i:]` for the last `.` at `0 < i < len-1`. -/
def pathSuffix (p : String) : String :=
  let name := pathName p
  match rIdxOf? '.' name with
  | some i =>
    if 0 < i && i + 1 < name.length then String.mk (name.drop i) else ""
  | Option.none => ""

/-- Lines 38-42: format inference from the extension when `output_format`
is `None`, then lowercasing. -/
def resolveFormat (output_path : String) (output_format : Option String) : String :=
  pyLower (match output_format with
    | some f => f
    | Option.none =>
      let ext := pyLstripChar '.' (pyLower (pathSuffix output_path))
      if ext == "" then "json" else ext)

/-- Line 43: the `supported` set (carried as a list; only membership is
observed). -/
def SUPPORTED_FORMATS : List String := ["json", "jsonl", "csv"]

/-! The CSV writer (`_export_csv`, lines 76-93), `csv` module defaults:
delimiter `,`, quote char `"`, `QUOTE_MINIMAL`, line terminator `\r\n`,
missing keys rendered as the default `restval` (`None`, written as the
empty field). -/

/-- `QUOTE_MINIMAL`: quote when the field contains the delimiter, the
quote character or a line-terminator character. -/
def csvNeedsQuote (s : String) : Bool :=
  s.data.any (fun c => c == ',' || c == '"' || c == '\x0d' || c == '\n')

def csvQuoteField (s : String) : String :=
  if csvNeedsQuote s then
    String.mk ('"' :: (s.data.flatMap (fun c => if c == '"' then ['"', '"'] else [c])) ++ ['"'])
  else s

def joinComma : List String → String
  | [] => ""
  | [x] => x
  | x :: y :: xs => strCat x (strCat "," (joinComma (y :: xs)))

/-- One CSV row (also used for the header, as `writeheader` writes the
field names through `writerow`). -/
def csvLine (fields : List String) : String :=
  strCat (joinComma (fields.map csvQuoteField)) "\x0d\n"

/-- Python `record.get(key, default)` on an association list (dict keys are
unique; the first binding is the binding). -/
def pyDictGetD (r : RecordDict) (k : String) (dflt : String) : String :=
  match r.find? (fun kv => kv.1 == k) with
  | some kv => kv.2
  | Option.none => dflt

/-- All keys of all records in iteration order (lines 83-85 accumulate
them into a set; only the sorted distinct keys are observable). -/
def allKeys : List RecordDict → List String
  | [] => []
  | r :: rs => r.map Prod.fst ++ allKeys rs

/-- Code-point-lexicographic string order (Python `sorted` on `str`). -/
def charListLe : List Char → List Char → Bool
  | [], _ => true
  | _ :: _, [] => false
  | a :: as, b :: bs =>
    decide (a.toNat < b.toNat) || (a.toNat == b.toNat && charListLe as bs)

def insertSorted (x : String) : List String → List String
  | [] => [x]
  | y :: ys => if charListLe x.data y.data then x :: y :: ys
               else y :: insertSorted x ys

def sortStrings : List String → List String
  | [] => []
  | x :: xs => insertSorted x (sortStrings xs)

/-- Line 87: `ordered_fields = sorted(fieldnames)` where `fieldnames` is
the set of all keys. -/
def csvFieldnames (records : List RecordDict) : List String :=
  sortStrings (allKeys records).dedup

def strJoinAll : List String → String
  | [] => ""
  | x :: xs => strCat x (strJoinAll xs)

/-- Lines 89-93: header row then one row per record in input order. -/
def csvFileContent (records : List RecordDict) : String :=
  strCat (csvLine (csvFieldnames records))
    (strJoinAll (records.map (fun r =>
      csvLine ((csvFieldnames records).map (fun k => pyDictGetD r k "")))))

/-- The write performed for one resolved format (lines 57-62 dispatch;
`_export_csv` touches an empty file for zero records). -/
def formatActions (fmt : String) (records : List RecordDict)
    (path : String) : List FSAction :=
  if fmt == "json" then [FSAction.writeJson path records]
  else if fmt == "jsonl" then [FSAction.writeJsonl path records]
  else if records == [] then [FSAction.touch path]
  else [FSAction.writeCsv path (csvFileContent records)]

/-- Lines 20-64: `export_data`.  `_normalize_records` shallow-copies each
mapping (the identity on values); the unsupported-format `ValueError`
(line 45, carrying the offending format name) is raised before
`_ensure_parent_dir` and any write. -/
def export_data (records : List RecordDict) (output_path : String)
    (output_format : Option String) : ExportOutcome :=
  let fmt := resolveFormat output_path output_format
  if memStr fmt SUPPORTED_FORMATS then
    { actions := FSAction.ensureParentDir output_path ::
        formatActions fmt records output_path,
      error := Option.none }
  else { actions := [], error := some fmt }

/-! ### The declarative deduplication specification

`dedupSpec key l` keeps, in order, the first element of `l` for each key
and drops every later element whose key was already seen — the property
the spec states for `_scrape_profile`'s `seen_urls` loop.  It inspects
nothing but the key. -/

def dedupSpec (key : Anchor → String) : List Anchor → List Anchor
  | [] => []
  | a :: rest =>
    a :: dedupSpec key (rest.filter (fun b => !(key b == key a)))
termination_by l => l.length
decreasing_by
  simp only [List.length_cons]
  exact Nat.lt_succ_of_le (List.length_filter_le _ _)

theorem dedupSpec_sublist_aux (key : Anchor → String) :
    ∀ (n : Nat) (l : List Anchor), l.length ≤ n →
      List.Sublist (dedupSpec key l) l
  | _, [], _ => by simp [dedupSpec]
  | 0, _ :: _, h => by simp at h
  | Nat.succ n, a :: rest, h => by
    rw [dedupSpec]
    apply List.Sublist.cons₂
    refine List.Sublist.trans
      (dedupSpec_sublist_aux key n _ ?_) (List.filter_sublist rest)
    have hf := List.length_filter_le (fun b => !(key b == key a)) rest
    simp only [List.length_cons] at h
    omega

theorem dedupSpec_sublist (key : Anchor → String) (l : List Anchor) :
    List.Sublist (dedupSpec key l) l :=
  dedupSpec_sublist_aux key l.length l le_rfl

theorem mem_of_mem_dedupSpec {key : Anchor → String} {l : List Anchor}
    {a : Anchor} (h : a ∈ dedupSpec key l) : a ∈ l :=
  (dedupSpec_sublist key l).subset h

/-- The keys of `dedupSpec key l` are pairwise distinct. -/
theorem nodup_map_key_dedupSpec (key : Anchor → String) :
    ∀ (n : Nat) (l : List Anchor), l.length ≤ n →
      ((dedupSpec key l).map key).Nodup
  | _, [], _ => by simp [dedupSpec]
  | 0, _ :: _, h => by simp at h
  | Nat.succ n, a :: rest, h => by
    rw [dedupSpec]
    simp only [List.map_cons, List.nodup_cons]
    constructor
    · intro hmem
      rcases List.exists_of_mem_map hmem with ⟨b, hb, hkey⟩
      have hbf := (List.mem_filter.mp (mem_of_mem_dedupSpec hb)).2
      rw [hkey] at hbf
      simp at hbf
    · apply nodup_map_key_dedupSpec key n
      have hf := List.length_filter_le (fun b => !(key b == key a)) rest
      simp only [List.length_cons] at h
      omega

theorem bool_and_not_or (x y z : Bool) :
    (x && !(y || z)) = (!y && (x && !z)) := by
  revert x y z
  decide

/-- The `_scrape_profile` loop without a limit is exactly first-wins
deduplication by normalized URL over the anchors with nonempty href and
unseen key, each surviving anchor built into its profile. -/
theorem scrapeGo_none_eq (base : String) :
    ∀ (l : List Anchor) (c : Nat) (seen : List String),
      scrapeGo base Option.none c seen l =
        (dedupSpec (anchorKey base)
            (l.filter (fun a =>
              !(a.href == "") && !(memStr (anchorKey base a) seen)))).map
          (fun a => build_profile_from_anchor a (anchorKey base a))
  | [], c, seen => by simp [scrapeGo, dedupSpec]
  | a :: rest, c, seen => by
    by_cases hh : a.href = ""
    · have h1 : (a.href == "") = true := by simp [hh]
      rw [scrapeGo]
      simp only [h1, if_true]
      rw [scrapeGo_none_eq base rest c seen]
      congr 2
      simp [List.filter_cons, h1]
    · have h1 : (a.href == "") = false := by simp [hh]
      by_cases hs : memStr (anchorKey base a) seen = true
      · rw [scrapeGo]
        simp only [h1, Bool.false_eq_true, if_false]
        rw [show normalize_profile_url base a.href = anchorKey base a from rfl]
        rw [if_pos hs]
        rw [scrapeGo_none_eq base rest c seen]
        congr 2
        simp [List.filter_cons, h1, hs]
      · have hs' : memStr (anchorKey base a) seen = false := by
          simp only [Bool.not_eq_true] at hs
          exact hs
        rw [scrapeGo]
        simp only [h1, Bool.false_eq_true, if_false]
        rw [show normalize_profile_url base a.href = anchorKey base a from rfl]
        rw [if_neg (by simp [hs'])]
        have hpred : List.filter (fun a =>
              !(a.href == "") && !(memStr (anchorKey base a) seen)) (a :: rest) =
            a :: List.filter (fun a =>
              !(a.href == "") && !(memStr (anchorKey base a) seen)) rest := by
          simp [List.filter_cons, h1, hs']
        rw [hpred, dedupSpec]
        simp only [List.map_cons, limitReached, Bool.false_eq_true, if_false]
        congr 1
        rw [scrapeGo_none_eq base rest (c + 1) (anchorKey base a :: seen)]
        congr 2
        rw [List.filter_filter]
        apply List.filter_congr
        intro b _
        show (!(b.href == "") && !(memStr (anchorKey base b) (anchorKey base a :: seen))) =
          (!(anchorKey base b == anchorKey base a) &&
            (!(b.href == "") && !(memStr (anchorKey base b) seen)))
        rw [show memStr (anchorKey base b) (anchorKey base a :: seen) =
            ((anchorKey base b == anchorKey base a) ||
              memStr (anchorKey base b) seen) from rfl]
        rw [bool_and_not_or]

/-- The truncation the `len(profiles) >= limit` break performs: `None`
keeps everything; a numeric limit keeps `max(limit, 1)` items (the break is
tested only after the first append, so even `limit <= 0` lets one record
through when one exists). -/
def pyTake {α : Type} : Option Int → List α → List α
  | Option.none, l => l
  | some n, l => l.take (max n.toNat 1)

/-- A numeric limit truncates the unlimited run. -/
theorem scrapeGo_some_take (base : String) (n : Int) :
    ∀ (l : List Anchor) (c : Nat) (seen : List String),
      scrapeGo base (some n) c seen l =
        (scrapeGo base Option.none c seen l).take (max (n - c).toNat 1)
  | [], c, seen => by simp [scrapeGo]
  | a :: rest, c, seen => by
    by_cases hh : (a.href == "") = true
    · rw [scrapeGo, scrapeGo, if_pos hh, if_pos hh]
      exact scrapeGo_some_take base n rest c seen
    · have h1 : (a.href == "") = false := by simpa using hh
      by_cases hs : memStr (normalize_profile_url base a.href) seen = true
      · rw [scrapeGo, scrapeGo, if_neg hh, if_neg hh, if_pos hs, if_pos hs]
        exact scrapeGo_some_take base n rest c seen
      · rw [scrapeGo, scrapeGo, if_neg hh, if_neg hh, if_neg hs, if_neg hs]
        have hnone : ¬ limitReached Option.none (c + 1) = true := by
          simp [limitReached]
        by_cases hl : limitReached (some n) (c + 1) = true
        · have hn : n ≤ (c : Int) + 1 := by
            simpa [limitReached] using hl
          have hone : max (n - c).toNat 1 = 1 :=
            max_eq_right (by omega)
          rw [if_pos hl, if_neg hnone, hone]
          rfl
        · have hn : ¬ n ≤ (c : Int) + 1 := by
            simpa [limitReached] using hl
          have h2 : max (n - ((c : Int) + 1)).toNat 1 = (n - ((c : Int) + 1)).toNat :=
            max_eq_left (by omega)
          have htwo : max (n - (c : Int)).toNat 1 = (n - ((c : Int) + 1)).toNat + 1 := by
            rw [max_eq_left (show 1 ≤ (n - (c : Int)).toNat by omega)]
            omega
          rw [if_neg hl, if_neg hnone, htwo, List.take_succ_cons]
          congr 1
          have hc : (((c + 1 : Nat)) : Int) = (c : Int) + 1 := by push_cast; ring
          rw [scrapeGo_some_take base n rest (c + 1)
            (normalize_profile_url base a.href :: seen), hc, h2]

/-- The surviving-anchor filter of `_scrape_profile` starting from an empty
`seen_urls` set: anchors with a nonempty `href`. -/
theorem filter_seen_nil (base : String) (l : List Anchor) :
    l.filter (fun a => !(a.href == "") && !(memStr (anchorKey base a) [])) =
      l.filter (fun a => !(a.href == "")) := by
  apply List.filter_congr
  intro a _
  simp [memStr]

/-- `_scrape_profile` on a whole page, unlimited: deduplicated surviving
candidates, built in order. -/
theorem scrape_profile_parse_none_eq (base : String) (doc : List Anchor) :
    scrape_profile_parse base doc Option.none =
      (dedupSpec (anchorKey base)
          ((find_candidate_cards doc).filter (fun a => !(a.href == "")))).map
        (fun a => build_profile_from_anchor a (anchorKey base a)) := by
  rw [scrape_profile_parse, scrapeGo_none_eq, filter_seen_nil]

/-- Any limited scrape is a truncation of the unlimited scrape. -/
theorem scrape_profile_parse_pyTake (base : String) (doc : List Anchor)
    (limit : Option Int) :
    scrape_profile_parse base doc limit =
      pyTake limit (scrape_profile_parse base doc Option.none) := by
  cases limit with
  | none => rfl
  | some n =>
    rw [scrape_profile_parse, scrape_profile_parse, scrapeGo_some_take]
    simp [pyTake]

/-- All profiles a scrape produces are built from anchors of the scanned
list (with their normalized URL as dedup key). -/
theorem scrapeGo_all (base : String) (Q : FollowingProfile → Bool)
    (limit : Option Int) :
    ∀ (l : List Anchor) (c : Nat) (seen : List String),
      (∀ a ∈ l, Q (build_profile_from_anchor a (anchorKey base a)) = true) →
      (scrapeGo base limit c seen l).all Q = true
  | [], _, _, _ => by simp [scrapeGo]
  | a :: rest, c, seen, hQ => by
    have hrest : ∀ b ∈ rest,
        Q (build_profile_from_anchor b (anchorKey base b)) = true :=
      fun b hb => hQ b (List.mem_cons_of_mem a hb)
    rw [scrapeGo]
    by_cases hh : (a.href == "") = true
    · rw [if_pos hh]
      exact scrapeGo_all base Q limit rest c seen hrest
    · rw [if_neg hh]
      by_cases hs : memStr (normalize_profile_url base a.href) seen = true
      · rw [if_pos hs]
        exact scrapeGo_all base Q limit rest c seen hrest
      · rw [if_neg hs]
        have ha : Q (build_profile_from_anchor a
            (normalize_profile_url base a.href)) = true :=
          hQ a (List.mem_cons_self a rest)
        by_cases hl : limitReached limit (c + 1) = true
        · rw [if_pos hl]
          simp only [List.all_cons, List.all_nil, ha, Bool.and_self]
        · rw [if_neg hl]
          have htail := scrapeGo_all base Q limit rest (c + 1)
            (normalize_profile_url base a.href :: seen) hrest
          simp only [List.all_cons, ha, htail, Bool.and_self]

/-- The URLs of the built profiles are the anchors' keys. -/
theorem map_url_build (base : String) (l : List Anchor) :
    ((l.map (fun a => build_profile_from_anchor a (anchorKey base a))).map
      FollowingProfile.url) = l.map (anchorKey base) := by
  rw [List.map_map]
  rfl

/-- C1: in one page scrape (`_scrape_profile`), deduplication is by
normalized URL with the first occurrence winning: no two returned records
share a `url`; the result is exactly the first-occurrence-per-key
sublist of the surviving candidates (`dedupSpec` inspects only the
normalized URL, so later anchors with a seen URL are dropped regardless of
their visible text), built in order and truncated by the limit; and that
sublist preserves document order within the candidate list. -/
theorem C1_dedup_by_normalized_url_first_wins (base : String)
    (doc : List Anchor) (limit : Option Int) :
    ((scrape_profile_parse base doc limit).map FollowingProfile.url).Nodup ∧
    scrape_profile_parse base doc limit =
      pyTake limit ((dedupSpec (anchorKey base)
          ((find_candidate_cards doc).filter (fun a => !(a.href == "")))).map
        (fun a => build_profile_from_anchor a (anchorKey base a))) ∧
    List.Sublist
      (dedupSpec (anchorKey base)
        ((find_candidate_cards doc).filter (fun a => !(a.href == ""))))
      (find_candidate_cards doc) := by
  have heq : scrape_profile_parse base doc limit =
      pyTake limit ((dedupSpec (anchorKey base)
          ((find_candidate_cards doc).filter (fun a => !(a.href == "")))).map
        (fun a => build_profile_from_anchor a (anchorKey base a))) := by
    rw [scrape_profile_parse_pyTake, scrape_profile_parse_none_eq]
  refine ⟨?_, heq,
    List.Sublist.trans (dedupSpec_sublist _ _) (List.filter_sublist _)⟩
  rw [heq]
  have hnodup := nodup_map_key_dedupSpec (anchorKey base)
    ((find_candidate_cards doc).filter (fun a => !(a.href == ""))).length
    ((find_candidate_cards doc).filter (fun a => !(a.href == ""))) le_rfl
  cases limit with
  | none =>
    simp only [pyTake]
    rw [map_url_build]
    exact hnodup
  | some n =>
    simp only [pyTake]
    rw [List.map_take, map_url_build]
    exact List.Nodup.sublist (List.take_sublist _ _) hnodup

/-! ### Lemmas about the orchestrating `scrape` loop -/

/-- With the budget exhausted, `scrape` returns no records at all. -/
theorem scrape_exhausted {α ε : Type} (fetch : α → Except ε (List Anchor))
    (base : String) (urls : List α) (cap : Option Int)
    (h : remainingExhausted cap = true) :
    scrape fetch base urls cap = [] := by
  cases urls with
  | nil => rfl
  | cons u rest => rw [scrape, if_pos h]

/-- The number of surviving (pattern-matched, non-blocklisted,
non-empty-text, nonempty-href, deduplicated) anchors of one document:
what one unlimited page scrape returns. -/
def totalMatches (base : String) (doc : List Anchor) : Nat :=
  (scrape_profile_parse base doc Option.none).length

/-- The record count of a limited page scrape. -/
theorem length_scrape_profile_parse (base : String) (doc : List Anchor)
    (n : Int) :
    (scrape_profile_parse base doc (some n)).length =
      min (max n.toNat 1) (totalMatches base doc) := by
  rw [scrape_profile_parse_pyTake, totalMatches, pyTake, List.length_take]

/-- A page scrape with a positive budget `m` returns at most `m` records. -/
theorem length_scrape_profile_parse_le (base : String) (doc : List Anchor)
    (m : Int) (hm : 1 ≤ m) :
    ((scrape_profile_parse base doc (some m)).length : Int) ≤ m := by
  rw [length_scrape_profile_parse]
  have h1 : max m.toNat 1 = m.toNat := max_eq_left (by omega)
  have h2 : min (max m.toNat 1) (totalMatches base doc) ≤ m.toNat := by
    rw [h1]; exact Nat.min_le_left _ _
  omega

/-- The aggregate record count of `scrape` with budget `m` is at most
`max(m, 0)` — for every fetch behaviour, including failures. -/
theorem scrape_length_le {α ε : Type} (fetch : α → Except ε (List Anchor))
    (base : String) :
    ∀ (urls : List α) (m : Int),
      (scrape fetch base urls (some m)).length ≤ m.toNat
  | [], m => by simp [scrape]
  | u :: rest, m => by
    by_cases hex : remainingExhausted (some m) = true
    · rw [scrape_exhausted fetch base _ _ hex]
      simp
    · have hm : 1 ≤ m := by
        simp only [remainingExhausted, decide_eq_true_eq] at hex
        omega
      rw [scrape, if_neg hex]
      cases hfu : fetch u with
      | error e => exact scrape_length_le fetch base rest m
      | ok doc =>
        simp only [List.length_append, List.length_map]
        have hk := length_scrape_profile_parse_le base doc m hm
        have htail := scrape_length_le fetch base rest
          (m - ((scrape_profile_parse base doc (some m)).length : Int))
        simp only [decrRemaining]
        omega

/-- With every fetch succeeding, the cumulative budget yields exactly
`min N (sum of the page totals)` records: each page consumes the budget by
the records it actually returned, and scraping stops once it is
exhausted. -/
theorem scrape_ok_length (base : String) :
    ∀ (docs : List (List Anchor)) (N : Nat),
      (scrape (fun d => (Except.ok d : Except Unit (List Anchor))) base docs
          (some (N : Int))).length =
        min N ((docs.map (totalMatches base)).sum)
  | [], N => by simp [scrape]
  | d :: rest, N => by
    cases N with
    | zero =>
      rw [scrape_exhausted _ _ _ _ (by simp [remainingExhausted])]
      simp
    | succ N' =>
      have hex : ¬ remainingExhausted (some ((N' + 1 : Nat) : Int)) = true := by
        simp only [remainingExhausted, decide_eq_true_eq]
        omega
      rw [scrape, if_neg hex]
      simp only [List.length_append, List.length_map, List.map_cons,
        List.sum_cons]
      have hk : (scrape_profile_parse base d (some ((N' + 1 : Nat) : Int))).length =
          min (N' + 1) (totalMatches base d) := by
        rw [length_scrape_profile_parse]
        congr 1
        omega
      have hcast : decrRemaining (some ((N' + 1 : Nat) : Int))
          (scrape_profile_parse base d (some ((N' + 1 : Nat) : Int))).length =
          some (((N' + 1 - min (N' + 1) (totalMatches base d) : Nat)) : Int) := by
        simp only [decrRemaining, hk]
        congr 1
        have : min (N' + 1) (totalMatches base d) ≤ N' + 1 := Nat.min_le_left _ _
        omega
      rw [hcast, scrape_ok_length base rest (N' + 1 - min (N' + 1) (totalMatches base d)), hk]
      have h1 : min (N' + 1) (totalMatches base d) ≤ N' + 1 := Nat.min_le_left _ _
      have h2 : min (N' + 1) (totalMatches base d) ≤ totalMatches base d :=
        Nat.min_le_right _ _
      omega

/-- `totalMatches` is the number of deduplicated surviving anchors. -/
theorem totalMatches_eq_dedup_length (base : String) (doc : List Anchor) :
    totalMatches base doc =
      (dedupSpec (anchorKey base)
        ((find_candidate_cards doc).filter (fun a => !(a.href == "")))).length := by
  rw [totalMatches, scrape_profile_parse_none_eq, List.length_map]

/-- C2: with `maxItems = N ≥ 0`, extraction through `scrape` on one URL
returns exactly the first `min(N, totalMatches)` records of the unlimited
extraction (hence document order is preserved); `totalMatches` is the
number of surviving deduplicated anchors; over several URLs the cumulative
budget yields exactly `min N (sum of page totals)` when every fetch
succeeds; and for every fetch behaviour the aggregate never exceeds `N`. -/
theorem C2_max_items_cap (base : String) :
    (∀ (u : String) (doc : List Anchor) (N : Nat),
      scrape (fun _ => (Except.ok doc : Except Unit (List Anchor))) base [u]
          (some (N : Int)) =
        ((scrape_profile_parse base doc Option.none).map
          FollowingProfile.to_dict).take N) ∧
    (∀ (u : String) (doc : List Anchor) (N : Nat),
      (scrape (fun _ => (Except.ok doc : Except Unit (List Anchor))) base [u]
          (some (N : Int))).length = min N (totalMatches base doc)) ∧
    (∀ (doc : List Anchor),
      totalMatches base doc =
        (dedupSpec (anchorKey base)
          ((find_candidate_cards doc).filter (fun a => !(a.href == "")))).length) ∧
    (∀ (docs : List (List Anchor)) (N : Nat),
      (scrape (fun d => (Except.ok d : Except Unit (List Anchor))) base docs
          (some (N : Int))).length =
        min N ((docs.map (totalMatches base)).sum)) ∧
    (∀ (fetch : String → Except Unit (List Anchor)) (urls : List String) (N : Nat),
      (scrape fetch base urls (some (N : Int))).length ≤ N) := by
  have hone : ∀ (u : String) (doc : List Anchor) (N : Nat),
      scrape (fun _ => (Except.ok doc : Except Unit (List Anchor))) base [u]
          (some (N : Int)) =
        ((scrape_profile_parse base doc Option.none).map
          FollowingProfile.to_dict).take N := by
    intro u doc N
    cases N with
    | zero =>
      rw [scrape_exhausted _ _ _ _ (by simp [remainingExhausted])]
      simp
    | succ N' =>
      have hex : ¬ remainingExhausted (some ((N' + 1 : Nat) : Int)) = true := by
        simp only [remainingExhausted, decide_eq_true_eq]
        omega
      rw [scrape, if_neg hex]
      dsimp only
      rw [show (scrape (fun _ => (Except.ok doc : Except Unit (List Anchor)))
          base [] (decrRemaining (some ((N' + 1 : Nat) : Int))
            (scrape_profile_parse base doc
              (some ((N' + 1 : Nat) : Int))).length)) = [] from rfl]
      rw [List.append_nil]
      rw [scrape_profile_parse_pyTake]
      simp only [pyTake]
      have hmax : max (((N' + 1 : Nat) : Int)).toNat 1 = N' + 1 := by
        rw [max_eq_left (by omega)]
        omega
      rw [hmax, List.map_take]
  refine ⟨hone, ?_, totalMatches_eq_dedup_length base, scrape_ok_length base,
    fun fetch urls N => ?_⟩
  · intro u doc N
    rw [hone u doc N, List.length_take, List.length_map]
    rfl
  · have := scrape_length_le fetch base urls ((N : Nat) : Int)
    simpa using this

/-- Did the fetch of this URL succeed (no exception raised)? -/
def fetchOk {ε α : Type} : Except ε α → Bool
  | Except.ok _ => true
  | Except.error _ => false

/-- C7: a per-URL failure is caught at the `try/except` of `scrape`
(logged and skipped) and never escapes: the run over any URL list equals
the run over just the URLs whose fetch succeeds — every failure is skipped,
every other URL still contributes its records, under any budget.  `scrape`
is total by construction, so no error aborts the batch. -/
theorem C7_per_url_errors_skipped {ε : Type}
    (fetch : String → Except ε (List Anchor)) (base : String) :
    ∀ (urls : List String) (cap : Option Int),
      scrape fetch base urls cap =
        scrape fetch base (urls.filter (fun u => fetchOk (fetch u))) cap
  | [], cap => by simp [scrape]
  | u :: rest, cap => by
    by_cases hex : remainingExhausted cap = true
    · rw [scrape_exhausted fetch base _ _ hex,
        scrape_exhausted fetch base _ _ hex]
    · cases hfu : fetch u with
      | error e =>
        rw [scrape, if_neg hex, hfu]
        have hfilter : (u :: rest).filter (fun v => fetchOk (fetch v)) =
            rest.filter (fun v => fetchOk (fetch v)) := by
          simp [List.filter_cons, hfu, fetchOk]
        rw [hfilter]
        exact C7_per_url_errors_skipped fetch base rest cap
      | ok doc =>
        have hfilter : (u :: rest).filter (fun v => fetchOk (fetch v)) =
            u :: rest.filter (fun v => fetchOk (fetch v)) := by
          simp [List.filter_cons, hfu, fetchOk]
        rw [hfilter, scrape, scrape, if_neg hex, if_neg hex, hfu]
        dsimp only
        rw [C7_per_url_errors_skipped fetch base rest
          (decrRemaining cap (scrape_profile_parse base doc cap).length)]

/-! ### Field derivation lemmas (`id`, `username`) -/

theorem startsWithL_ne_nil {p : Char} {ps cs : List Char}
    (h : startsWithL (p :: ps) cs = true) : cs ≠ [] := by
  cases cs with
  | nil => simp [startsWithL] at h
  | cons c cs' => simp

theorem data_eq_nil_iff (s : String) : s.data = [] ↔ s = "" := by
  rw [String.ext_iff]

theorem strCat_ne_empty_left (a b : String) (ha : a.data ≠ []) :
    strCat a b ≠ "" := by
  intro h
  have hd := (data_eq_nil_iff (strCat a b)).mpr h
  simp only [strCat] at hd
  rcases List.append_eq_nil.mp hd with ⟨h1, _⟩
  exact ha h1

theorem strCat_ne_empty_right (a b : String) (hb : b.data ≠ []) :
    strCat a b ≠ "" := by
  intro h
  have hd := (data_eq_nil_iff (strCat a b)).mpr h
  simp only [strCat] at hd
  rcases List.append_eq_nil.mp hd with ⟨_, h2⟩
  exact hb h2

/-- `_normalize_profile_url` never returns the empty string: an absolute
URL is nonempty by its prefix, the protocol-relative branch prefixes
`https:`, and the urljoin branch always contains the base's trailing
slash or a scheme. -/
theorem normalize_profile_url_ne_empty (base_url url : String) :
    normalize_profile_url base_url url ≠ "" := by
  rw [normalize_profile_url]
  by_cases h1 : (strStartsWith url "http://" || strStartsWith url "https://") = true
  · rw [if_pos h1]
    rcases Bool.or_eq_true_iff.mp h1 with h | h
    · intro hurl
      exact startsWithL_ne_nil h ((data_eq_nil_iff url).mpr hurl)
    · intro hurl
      exact startsWithL_ne_nil h ((data_eq_nil_iff url).mpr hurl)
  · rw [if_neg h1]
    by_cases h2 : strStartsWith url "//" = true
    · rw [if_pos h2]
      exact strCat_ne_empty_left "https:" url (by decide)
    · rw [if_neg h2, urljoinModel]
      by_cases h3 : (pyLstripChar '/' url == "") = true
      · rw [if_pos h3]
        exact strCat_ne_empty_right base_url "/" (by decide)
      · rw [if_neg h3]
        cases hsch : pySplitScheme (pyLstripChar '/' url).data with
        | none =>
          dsimp only
          exact strCat_ne_empty_left (strCat base_url "/") _
            (by simp [strCat])
        | some pr =>
          rcases pr with ⟨sch, rest⟩
          dsimp only
          by_cases h4 : (sch == "https".data) = true
          · rw [if_pos h4]
            exact strCat_ne_empty_left (strCat base_url "/") _
              (by simp [strCat])
          · rw [if_neg h4]
            simpa using h3

/-- A successful `id=(\d+)` search captures at least one digit. -/
theorem reIdSearchAux_ne_empty :
    ∀ (cs : List Char) (ds : String), reIdSearchAux cs = some ds → ds ≠ ""
  | [], ds, h => by simp [reIdSearchAux] at h
  | c :: rest, ds, h => by
    rw [reIdSearchAux] at h
    by_cases hid : startsWithL ("id=".data) (c :: rest) = true
    · rw [if_pos hid] at h
      cases hdrop : (c :: rest).drop 3 with
      | nil =>
        rw [hdrop] at h
        exact reIdSearchAux_ne_empty rest ds h
      | cons d t =>
        rw [hdrop] at h
        dsimp only at h
        by_cases hd : d.isDigit = true
        · rw [if_pos hd] at h
          have hds : ds = String.mk (d :: t.takeWhile Char.isDigit) := by
            injection h with h'
            exact h'.symm
          rw [hds]
          intro hcon
          have := (data_eq_nil_iff (String.mk (d :: t.takeWhile Char.isDigit))).mpr hcon
          simp at this
        · rw [if_neg hd] at h
          exact reIdSearchAux_ne_empty rest ds h
    · rw [if_neg hid] at h
      exact reIdSearchAux_ne_empty rest ds h

/-- The `id` derivation rule as the specification states it: the numeric
query-parameter value for `profile.php`-shaped URLs, otherwise the last URL
path segment, otherwise the full normalized URL. -/
def idSpecOfUrl (url : String) : String :=
  let parsed := pyUrlparse url
  if strContains parsed.path "profile.php" then
    match reIdSearch parsed.query with
    | some ds => ds
    | Option.none => url
  else
    match (pathSegments parsed.path).getLast? with
    | some seg => if seg == "" then url else seg
    | Option.none => url

/-- A built profile's `id` follows the spec's derivation rule and is
nonempty whenever the URL it was built from is nonempty. -/
theorem build_id_spec (a : Anchor) (u : String) (hu : u ≠ "") :
    (build_profile_from_anchor a u).id = idSpecOfUrl u ∧
    (build_profile_from_anchor a u).id ≠ "" := by
  show (let pid := rawProfileId (pyUrlparse u)
        if pid == "" then u else pid) = idSpecOfUrl u ∧
    (let pid := rawProfileId (pyUrlparse u)
     if pid == "" then u else pid) ≠ ""
  rw [rawProfileId, idSpecOfUrl]
  by_cases hphp : strContains (pyUrlparse u).path "profile.php" = true
  · rw [if_pos hphp, if_pos hphp]
    cases hre : reIdSearch (pyUrlparse u).query with
    | none => simp [hu]
    | some ds =>
      have hds : ds ≠ "" := reIdSearchAux_ne_empty _ ds hre
      simp [hds, hu]
  · rw [if_neg hphp, if_neg hphp]
    cases hseg : (pathSegments (pyUrlparse u).path).getLast? with
    | none => simp [hu]
    | some seg =>
      dsimp only
      rw [ite_self]
      by_cases hs : (seg == "") = true
      · simp only [hs, if_pos]
        exact ⟨trivial, hu⟩
      · simp only [hs, Bool.false_eq_true, if_false, if_neg]
        exact ⟨trivial, by simpa using hs⟩

/-- C6: every `FollowingProfile` produced by extraction has a nonempty
`id`, derived as the spec states: the numeric query-parameter value for
`profile.php`-shaped URLs, otherwise the last path segment, otherwise the
full normalized URL (`idSpecOfUrl`); the fallback makes it never empty. -/
theorem C6_id_nonempty (base : String) (doc : List Anchor)
    (limit : Option Int) :
    (scrape_profile_parse base doc limit).all
      (fun p => !(p.id == "") && (p.id == idSpecOfUrl p.url)) = true := by
  apply scrapeGo_all
  intro a _
  have hu : anchorKey base a ≠ "" := normalize_profile_url_ne_empty base a.href
  rcases build_id_spec a (anchorKey base a) hu with ⟨h1, h2⟩
  have h3 : idSpecOfUrl (anchorKey base a) ≠ "" := h1 ▸ h2
  simp only [show (build_profile_from_anchor a (anchorKey base a)).url =
    anchorKey base a from rfl, h1]
  simp [h3]

/-- The username rule the code actually implements (the amended C4):
`username` is absent exactly for `profile.php`-shaped URLs and empty
paths; otherwise it is the last path segment — also when that segment is
purely numeric (the numeric test of line 211 leaves `username` set and
only feeds `profile_id`). -/
def usernameSpecOfUrl (url : String) : Option String :=
  let parsed := pyUrlparse url
  if strContains parsed.path "profile.php" then Option.none
  else (pathSegments parsed.path).getLast?

/-- C4 (amended): every extracted record's `username` follows
`usernameSpecOfUrl`: absent for `profile.php` URLs and empty paths,
otherwise the last path segment regardless of numericness. -/
theorem C4_username_rule_amended (base : String) (doc : List Anchor)
    (limit : Option Int) :
    (scrape_profile_parse base doc limit).all
      (fun p => p.username == usernameSpecOfUrl p.url) = true := by
  apply scrapeGo_all
  intro a _
  simp only [show (build_profile_from_anchor a (anchorKey base a)).url =
    anchorKey base a from rfl]
  simp only [show (build_profile_from_anchor a (anchorKey base a)).username =
    usernameOf (pyUrlparse (anchorKey base a)) from rfl]
  simp only [show usernameSpecOfUrl (anchorKey base a) =
    usernameOf (pyUrlparse (anchorKey base a)) from rfl]
  simp

/-- C4 counterexample: an anchor whose URL's last path segment is purely
numeric still carries `username` (equal to the numeric id) — the claim
says records with a numeric last segment have `username` absent. -/
theorem C4_counterexample :
    (scrape_profile_parse "https://www.facebook.com"
        [{ href := "https://www.facebook.com/12345", text := "Some Person",
           ariaLabel := Option.none, titleAttr := Option.none,
           hasImg := false, imgSrc := Option.none, imgDataSrc := Option.none,
           dataGt := Option.none, dataHovercard := Option.none }]
        Option.none).map FollowingProfile.username = [some "12345"] ∧
    pyFullmatchDigits "12345" = true := by
  constructor
  · rfl
  · rfl

/-- C10: the navigation blocklist contains `"friends"` while `/friends` is
on the accepted URL-pattern list; every candidate anchor (and hence every
record's title) is free of the substring `"friends"` in its case-folded
visible text; concretely, an anchor titled `Friends of the Earth` whose
href matches the URL patterns is silently dropped. -/
theorem C10_friends_blocklist :
    ("/friends" ∈ FOLLOWING_URL_PATTERNS ∧ "friends" ∈ NAV_SKIP_TERMS) ∧
    (∀ (doc : List Anchor),
      (find_candidate_cards doc).all
        (fun a => !(strContains (pyLower a.text) "friends")) = true) ∧
    (∀ (base : String) (doc : List Anchor) (limit : Option Int),
      (scrape_profile_parse base doc limit).all
        (fun p => !(strContains (pyLower p.title) "friends")) = true) ∧
    (FOLLOWING_URL_PATTERNS.any (fun p => strContains
        "https://www.facebook.com/friendsoftheearth" p) = true ∧
      find_candidate_cards
        [{ href := "https://www.facebook.com/friendsoftheearth",
           text := "Friends of the Earth",
           ariaLabel := Option.none, titleAttr := Option.none,
           hasImg := false, imgSrc := Option.none, imgDataSrc := Option.none,
           dataGt := Option.none, dataHovercard := Option.none }] = []) := by
  have hcand : ∀ (doc : List Anchor) (a : Anchor),
      a ∈ find_candidate_cards doc →
      strContains (pyLower a.text) "friends" = false := by
    intro doc a ha
    have hc := (List.mem_filter.mp ha).2
    rw [isCandidate] at hc
    rcases Bool.and_eq_true_iff.mp hc with ⟨_, hno⟩
    by_cases h : strContains (pyLower a.text) "friends" = true
    · exfalso
      have : NAV_SKIP_TERMS.any
          (fun t => strContains (pyLower a.text) t) = true :=
        List.any_eq_true.mpr ⟨"friends", by decide, h⟩
      rw [this] at hno
      simp at hno
    · simpa using h
  refine ⟨⟨by decide, by decide⟩, ?_, ?_, by decide, by decide⟩
  · intro doc
    rw [List.all_eq_true]
    intro a ha
    simp [hcand doc a ha]
  · intro base doc limit
    apply scrapeGo_all
    intro a ha
    have h := hcand doc a ha
    simp only [show (build_profile_from_anchor a (anchorKey base a)).title =
      a.text from rfl]
    simp [h]

/-- C3 (code bug): `parse_relative_time` does NOT return normally on every
input — for any reference instant, the input `"yesterday at 25:00"` reaches
`dt.replace(hour=25, ...)` (line 55), which raises
`ValueError: hour must be in 0..23`; the docstring (line 36: "If parsing
fails, returns the current time") and the spec say it never fails.  A
genuinely unparseable input such as `"garbage text"` does fall back to the
reference instant. -/
theorem C3_yesterday_hour_raises (T : Int) :
    parse_relative_time "yesterday at 25:00" T =
      Except.error "hour must be in 0..23" ∧
    parse_relative_time "yesterday at 14:61" T =
      Except.error "minute must be in 0..59" ∧
    parse_relative_time "garbage text" T = Except.ok T := by
  refine ⟨rfl, rfl, rfl⟩

/-- C9: the concrete relative-time equalities of the spec, plus
discriminating inputs witnessing the priority order (`now`-tokens before
`yesterday`, `yesterday` before the minute pattern, minutes before hours,
hours before days) and the day pattern itself.  Instants are UTC
microseconds; `now` is the reference instant `T`. -/
theorem C9_relative_time_parsing (T : Int) :
    parse_relative_time "5 mins" T = Except.ok (T - 300000000) ∧
    parse_relative_time "2 hours ago" T = Except.ok (T - 7200000000) ∧
    parse_relative_time "just now" T = Except.ok T ∧
    parse_relative_time "now" T = Except.ok T ∧
    parse_relative_time "3 days" T = Except.ok (T - 259200000000) ∧
    parse_relative_time "5 mins 2 hours ago" T = Except.ok (T - 300000000) ∧
    parse_relative_time "2 hours 3 days" T = Except.ok (T - 7200000000) ∧
    parse_relative_time "yesterday 30 mins" T = Except.ok (T - 86400000000) := by
  refine ⟨rfl, rfl, rfl, rfl, rfl, rfl, rfl, rfl⟩

/-! ### Ordering lemmas for the CSV header sort -/

theorem charListLe_total : ∀ (a b : List Char),
    (charListLe a b || charListLe b a) = true
  | [], b => by simp [charListLe]
  | a :: as, [] => by simp [charListLe]
  | a :: as, b :: bs => by
    simp only [charListLe, Bool.or_eq_true, decide_eq_true_eq,
      Bool.and_eq_true, beq_iff_eq]
    have ih := charListLe_total as bs
    simp only [Bool.or_eq_true] at ih
    rcases Nat.lt_trichotomy a.toNat b.toNat with h | h | h
    · left; left; exact h
    · rcases ih with ihl | ihr
      · left; right; exact ⟨h, ihl⟩
      · right; right; exact ⟨h.symm, ihr⟩
    · right; left; exact h

theorem charListLe_trans : ∀ (a b c : List Char),
    charListLe a b = true → charListLe b c = true → charListLe a c = true
  | [], _, _, _, _ => by simp [charListLe]
  | a :: as, [], c, h1, _ => by simp [charListLe] at h1
  | a :: as, b :: bs, [], _, h2 => by simp [charListLe] at h2
  | a :: as, b :: bs, c :: cs, h1, h2 => by
    simp only [charListLe, Bool.or_eq_true, decide_eq_true_eq,
      Bool.and_eq_true, beq_iff_eq] at h1 h2 ⊢
    rcases h1 with h1 | ⟨h1e, h1r⟩
    · rcases h2 with h2 | ⟨h2e, h2r⟩
      · left; omega
      · left; omega
    · rcases h2 with h2 | ⟨h2e, h2r⟩
      · left; omega
      · right
        exact ⟨by omega, charListLe_trans as bs cs h1r h2r⟩

theorem mem_insertSorted (x y : String) :
    ∀ (l : List String), y ∈ insertSorted x l ↔ y = x ∨ y ∈ l
  | [] => by simp [insertSorted]
  | z :: zs => by
    rw [insertSorted]
    by_cases h : charListLe x.data z.data = true
    · rw [if_pos h]
      simp only [List.mem_cons]
    · rw [if_neg h]
      simp only [List.mem_cons, mem_insertSorted x y zs]
      tauto

/-- The order used for the header: `a ≤ b` in code-point order. -/
def LeStr (a b : String) : Prop := charListLe a.data b.data = true

theorem pairwise_insertSorted (x : String) :
    ∀ (l : List String), l.Pairwise LeStr →
      (insertSorted x l).Pairwise LeStr
  | [], _ => by simp [insertSorted, List.pairwise_cons]
  | z :: zs, h => by
    rcases List.pairwise_cons.mp h with ⟨hz, hzs⟩
    rw [insertSorted]
    by_cases hle : charListLe x.data z.data = true
    · rw [if_pos hle]
      rw [List.pairwise_cons]
      constructor
      · intro w hw
        rcases List.mem_cons.mp hw with rfl | hwz
        · exact hle
        · exact charListLe_trans _ _ _ hle (hz w hwz)
      · exact h
    · rw [if_neg hle]
      rw [List.pairwise_cons]
      constructor
      · intro w hw
        rcases (mem_insertSorted x w zs).mp hw with hwx | hwz
        · subst hwx
          have htot := charListLe_total w.data z.data
          simp only [Bool.or_eq_true] at htot
          rcases htot with h1 | h1
          · exact absurd h1 hle
          · exact h1
        · exact hz w hwz
      · exact pairwise_insertSorted x zs hzs

theorem nodup_insertSorted (x : String) :
    ∀ (l : List String), x ∉ l → l.Nodup → (insertSorted x l).Nodup
  | [], _, _ => by simp [insertSorted]
  | z :: zs, hx, h => by
    rcases List.nodup_cons.mp h with ⟨hz, hzs⟩
    rw [insertSorted]
    by_cases hle : charListLe x.data z.data = true
    · rw [if_pos hle]
      rw [List.nodup_cons]
      exact ⟨hx, h⟩
    · rw [if_neg hle]
      rw [List.nodup_cons]
      constructor
      · intro hmem
        rcases (mem_insertSorted x z zs).mp hmem with rfl | hzz
        · exact hx (List.mem_cons_self z zs)
        · exact hz hzz
      · exact nodup_insertSorted x zs
          (fun hm => hx (List.mem_cons_of_mem z hm)) hzs

theorem mem_sortStrings (y : String) :
    ∀ (l : List String), y ∈ sortStrings l ↔ y ∈ l
  | [] => by simp [sortStrings]
  | x :: xs => by
    rw [sortStrings, mem_insertSorted]
    simp only [List.mem_cons, mem_sortStrings y xs]

theorem pairwise_sortStrings :
    ∀ (l : List String), (sortStrings l).Pairwise LeStr
  | [] => by simp [sortStrings]
  | x :: xs => pairwise_insertSorted x _ (pairwise_sortStrings xs)

theorem nodup_sortStrings :
    ∀ (l : List String), l.Nodup → (sortStrings l).Nodup
  | [], _ => by simp [sortStrings]
  | x :: xs, h => by
    rcases List.nodup_cons.mp h with ⟨hx, hxs⟩
    exact nodup_insertSorted x _
      (fun hm => hx ((mem_sortStrings x xs).mp hm)) (nodup_sortStrings xs hxs)

theorem mem_allKeys (k : String) :
    ∀ (records : List RecordDict),
      k ∈ allKeys records ↔ ∃ r, r ∈ records ∧ k ∈ r.map Prod.fst
  | [] => by simp [allKeys]
  | r :: rs => by
    rw [allKeys, List.mem_append, mem_allKeys k rs]
    constructor
    · rintro (h | ⟨r', hr', hk⟩)
      · exact ⟨r, List.mem_cons_self r rs, h⟩
      · exact ⟨r', List.mem_cons_of_mem r hr', hk⟩
    · rintro ⟨r', hr', hk⟩
      rcases List.mem_cons.mp hr' with rfl | hr''
      · exact Or.inl hk
      · exact Or.inr ⟨r', hr'', hk⟩

/-- C8: the CSV header is the sorted (code-point order), duplicate-free
union of all keys across all records; keys a record lacks render as empty
cells (the spec's `[{"a":1},{"b":2}]` example produces header `a,b` with
rows `1,` and `,2`, with the csv module's `\r\n` terminator); and zero
records make `export_data` touch an existing empty file instead of
failing. -/
theorem C8_csv_sorted_union_header :
    (∀ (records : List RecordDict), (csvFieldnames records).Pairwise LeStr) ∧
    (∀ (records : List RecordDict), (csvFieldnames records).Nodup) ∧
    (∀ (records : List RecordDict) (k : String),
      k ∈ csvFieldnames records ↔ ∃ r, r ∈ records ∧ k ∈ r.map Prod.fst) ∧
    csvFileContent [[("a", "1")], [("b", "2")]] = "a,b\x0d\n1,\x0d\n,2\x0d\n" ∧
    (∀ (path : String), export_data [] path (some "csv") =
      { actions := [FSAction.ensureParentDir path, FSAction.touch path],
        error := Option.none }) := by
  refine ⟨?_, ?_, ?_, by decide, fun path => rfl⟩
  · intro records
    exact pairwise_sortStrings _
  · intro records
    exact nodup_sortStrings _ (List.nodup_dedup _)
  · intro records k
    rw [csvFieldnames, mem_sortStrings, List.mem_dedup, mem_allKeys]

/-- C5 counterexample: the claim's accepted set is {json, jsonlines, csv},
but the format string `"jsonlines"` is rejected (with no I/O action at
all), while `"jsonl"` — outside the claim's set — is accepted. -/
theorem C5_counterexample :
    export_data [] "out.json" (some "jsonlines") =
      { actions := [], error := some "jsonlines" } ∧
    export_data [] "data.txt" (some "jsonl") =
      { actions := [FSAction.ensureParentDir "data.txt",
          FSAction.writeJsonl "data.txt" []], error := Option.none } := by
  exact ⟨rfl, rfl⟩

/-- C5 (amended): after extension inference and lowercasing,
`export_data` accepts exactly the format strings {json, jsonl, csv}; any
other resolved format raises `ValueError` (carrying the offending format)
before any filesystem action, so no output file or parent directory is
created for the rejected request. -/
theorem C5_format_validation_amended :
    (∀ (records : List RecordDict) (path : String) (fmt : Option String),
      (export_data records path fmt).error.isNone =
        memStr (resolveFormat path fmt) SUPPORTED_FORMATS) ∧
    (∀ (records : List RecordDict) (path : String) (fmt : Option String),
      (export_data records path fmt).actions =
        (if memStr (resolveFormat path fmt) SUPPORTED_FORMATS = true then
          FSAction.ensureParentDir path ::
            formatActions (resolveFormat path fmt) records path
        else [])) := by
  constructor
  · intro records path fmt
    rw [export_data]
    by_cases h : memStr (resolveFormat path fmt) SUPPORTED_FORMATS = true
    · rw [if_pos h, h]
      rfl
    · rw [if_neg h]
      simp only [Bool.not_eq_true] at h
      rw [h]
      rfl
  · intro records path fmt
    rw [export_data]
    by_cases h : memStr (resolveFormat path fmt) SUPPORTED_FORMATS = true
    · rw [if_pos h, if_pos h]
    · rw [if_neg h, if_neg h]
